import Mathlib

/-!
# Bambu dashboard: temperature series, axis labels, status panel, refresh timer

A shallow embedding of `src/App.jsx`.

* Every JavaScript number is a binary64 double and every arithmetic operation rounds to
  nearest, ties to even, at 53 significant bits. A number that holds a non-negative integer
  (sample times, hours, minutes, the window selector) is the natural number it holds; a sum
  or quotient of such numbers is rounded as the double operation rounds it. A non-negative
  double with a fractional part is a dyadic `num * 2 ^ (-exp)`.
* `Number.prototype.toString` is the ECMAScript algorithm: the shortest decimal that rounds
  back to the number, in exponent form from `10 ^ 21` on.
* The random source is a stream of such doubles, read in evaluation order.
* React state is an explicit record; every state update is a function on it.
-/

namespace BambuDashboard

/-! ## Binary64 arithmetic on non-negative values -/

/-- Number of significant binary digits of `n`, by halving with `fuel` steps. -/
def bitLengthAux : Nat → Nat → Nat
  | 0, _ => 0
  | fuel + 1, n => if n = 0 then 0 else bitLengthAux fuel (n / 2) + 1

/-- Number of significant binary digits of `n` (`0` for `0`). -/
def bitLength (n : Nat) : Nat := bitLengthAux n n

/-- Round a non-negative integer significand to 53 significant bits, to nearest, ties to
even: the default rounding of every binary64 operation. -/
def roundBinary64 (n : Nat) : Nat :=
  let s := bitLength n - 53
  let q := n / 2 ^ s
  let rem := n % 2 ^ s
  if 2 * rem < 2 ^ s then q * 2 ^ s
  else if 2 * rem = 2 ^ s then (if q % 2 = 0 then q else q + 1) * 2 ^ s
  else (q + 1) * 2 ^ s

/-- A non-negative finite JavaScript number with a fractional part: `num * 2 ^ (-exp)`. -/
structure Binary64 where
  num : Nat
  exp : Nat
deriving DecidableEq, Repr

/-- The values `Math.random()` may return: doubles `r` with `0 ≤ r < 1`. -/
def Binary64.isRandom (r : Binary64) : Prop :=
  r.num < 2 ^ r.exp ∧ roundBinary64 r.num = r.num ∧ r.exp ≤ 1074

instance (r : Binary64) : Decidable r.isRandom := by
  unfold Binary64.isRandom; infer_instance

/-- JavaScript `x * k` for an integer constant `k`. -/
def Binary64.mulNat (x : Binary64) (k : Nat) : Binary64 :=
  { num := roundBinary64 (x.num * k), exp := x.exp }

/-- JavaScript `x + k` for an integer constant `k`. -/
def Binary64.addNat (x : Binary64) (k : Nat) : Binary64 :=
  { num := roundBinary64 (x.num + k * 2 ^ x.exp), exp := x.exp }

/-- JavaScript `Math.floor(x)`. -/
def Binary64.floor (x : Binary64) : Nat := x.num / 2 ^ x.exp

/-- JavaScript `a / b` for numbers holding the integers `a` and `b > 0`: the quotient is
computed to more than 64 bits with a sticky bit for the discarded remainder, then rounded. -/
def divNat (a b : Nat) : Binary64 :=
  let p := 64 + bitLength b
  let scaled := a * 2 ^ p
  let sticky := if scaled % b = 0 then 0 else 1
  { num := roundBinary64 (2 * (scaled / b) + sticky), exp := p + 1 }

/-- The integer `s * 10 ^ (n - k)` of ECMAScript `Number::toString` for a number holding
the integer `x`: the decimal with the fewest significant digits `k` that rounds to `x`,
the one nearest to `x` when several do, the one with even `s` on a tie. With `i + 1`
digits the only candidates are the two neighbouring multiples of `10 ^ (d - (i + 1))`,
and 17 digits always suffice. -/
def shortestDecimal (x : Nat) : Nat :=
  let d := (Nat.toDigits 10 x).length
  let candidate := (List.range 17).findSome? fun i =>
    let unit := 10 ^ (d - (i + 1))
    let lo := x / unit * unit
    let hi := lo + unit
    if roundBinary64 lo = x then
      if roundBinary64 hi = x then
        if x - lo < hi - x then some lo
        else if hi - x < x - lo then some hi
        else if x / unit % 2 = 0 then some lo else some hi
      else some lo
    else if roundBinary64 hi = x then some hi
    else none
  candidate.getD x

/-- JavaScript `x.toString()` and the conversion in a template literal, for a number
holding the integer `x`: the digits of the shortest decimal followed by zeros below
`10 ^ 21`, and `d.ddde+n` from there on. -/
def numberToString (x : Nat) : String :=
  let v := shortestDecimal x
  if v < 10 ^ 21 then Nat.repr v
  else
    let digits := Nat.toDigits 10 v
    let significant := (digits.reverse.dropWhile fun c => c == '0').reverse
    let fraction := significant.drop 1
    String.mk (significant.take 1 ++ (if fraction = [] then [] else '.' :: fraction)) ++
      "e+" ++ Nat.repr (digits.length - 1)

/-- The random source: the successive results of `Math.random()`. -/
abbrev Random := Nat → Binary64

/-- `Math.floor(Math.random() * (100 - 60 + 1) + 60)` where `Math.random()` returned `r`. -/
def randomBedTemp (r : Binary64) : Nat :=
  ((r.mulNat (100 - 60 + 1)).addNat 60).floor

/-- `Math.floor(Math.random() * (220 - 180 + 1) + 180)` where `Math.random()` returned `r`. -/
def randomNozzleTemp (r : Binary64) : Nat :=
  ((r.mulNat (220 - 180 + 1)).addNat 180).floor

/-- The value `floor(r * k + lo)` in exact arithmetic, without rounding. -/
def exactFloor (r : Binary64) (k lo : Nat) : Nat :=
  (r.num * k + lo * 2 ^ r.exp) / 2 ^ r.exp

/-! ## Data generator -/

/-- One element of the temperature series. -/
structure Sample where
  time : Nat
  bedTemp : Nat
  nozzleTemp : Nat
deriving DecidableEq, Repr

/-- `generateTemperatureData(days)`: `Array.from` calls the mapper for `i = 0, 1, ...` in
order; the call for index `i` reads the random source twice. The product `i * 5` is at
most `10075` and exact. -/
def generateTemperatureData (days : Nat) (random : Random) : List Sample :=
  let dataPoints := if days = 1 then 288 else 288 * 7
  (List.range dataPoints).map fun i =>
    { time := i * 5
      bedTemp := randomBedTemp (random (2 * i))
      nozzleTemp := randomNozzleTemp (random (2 * i + 1)) }

/-- The `time` fields of a series, in order. -/
def times (series : List Sample) : List Nat := series.map Sample.time

/-! ## Time-axis formatter -/

/-- JavaScript `s.padStart(targetLength, c)` for a one-character pad string. -/
def padStart (s : String) (targetLength : Nat) (c : Char) : String :=
  String.mk (List.replicate (targetLength - s.length) c) ++ s

/-- `formatXAxis(tickItem, days)` for a `tickItem` holding a non-negative integer. The two
divisions and the `+ 1` are binary64 operations; `%` on doubles is exact. -/
def formatXAxis (tickItem days : Nat) : String :=
  let hours := (divNat tickItem 60).floor
  let minutes := tickItem % 60
  if days = 1 then
    padStart (numberToString hours) 2 '0' ++ ":" ++ padStart (numberToString minutes) 2 '0'
  else
    "Day " ++ numberToString (roundBinary64 ((divNat hours 24).floor + 1))

/-- Decimal numeral of `n`, zero-padded on the left to two digits (spec, section 4.3). -/
def zeroPadded2 (n : Nat) : String :=
  if n < 10 then "0" ++ toString n else toString n

/-- Reference definition of the axis label, written from the words of the specification:
`HH:MM` from `offset // 60` and `offset % 60` in the 1-day window, `Day N` with
`N = floor(hours / 24) + 1` in the 7-day window; no other window is specified. -/
def formatSpec (offset window : Nat) : Option String :=
  if window = 1 then
    some (zeroPadded2 (offset / 60) ++ ":" ++ zeroPadded2 (offset % 60))
  else if window = 7 then
    some ("Day " ++ toString (offset / 60 / 24 + 1))
  else none

/-! ## Refresh tick -/

/-- The state updater passed to `setTempData` by the interval callback. Reading
`prevData[prevData.length - 1].time` on an empty array throws, which is `none`. The sum
`time + 5` is a binary64 addition. -/
def refreshTick (random : Random) (prevData : List Sample) : Option (List Sample) :=
  match prevData.getLast? with
  | none => none
  | some last =>
    some (prevData.drop 1 ++
      [{ time := roundBinary64 (last.time + 5)
         bedTemp := randomBedTemp (random 0)
         nozzleTemp := randomNozzleTemp (random 1) }])

/-! ## Component state and its updates -/

/-- The React state of `Dashboard`: one field per `useState` call. A `failureReason` of
`null` or `undefined` is `none`. -/
structure Dashboard where
  viewDays : Nat
  tempData : List Sample
  printStatus : String
  printCompletion : Nat
  remainingTime : String
  printName : String
  failureReason : Option String

/-- The initial values given to `useState` on the first render. -/
def initialState (random : Random) : Dashboard :=
  { viewDays := 1
    tempData := generateTemperatureData 1 random
    printStatus := "Paused"
    printCompletion := 45
    remainingTime := "2h 15m"
    printName := "Benchy.gcode"
    failureReason := some "spaghetti" }

/-- The effect with dependency list `[viewDays]`:
`setTempData(generateTemperatureData(viewDays))`. -/
def regenerate (random : Random) (s : Dashboard) : Dashboard :=
  { s with tempData := generateTemperatureData s.viewDays random }

/-- A click handler `setViewDays(d)` with the render it causes. React keeps the state and
runs no effect when `d` is the value already held; otherwise `viewDays` changes and the
`[viewDays]` effect runs. -/
def setViewDays (d : Nat) (random : Random) (s : Dashboard) : Dashboard :=
  if d = s.viewDays then s else regenerate random { s with viewDays := d }

/-- One firing of the interval callback: `setTempData(prevData => ...)`. -/
def tick (random : Random) (s : Dashboard) : Option Dashboard :=
  (refreshTick random s.tempData).map fun data => { s with tempData := data }

/-! ## View lifecycle and the interval timer -/

/-- The component together with the host's timer table. `interval` is the handle held by
the cleanup closure of the mount effect, `timers` the handles that `setInterval` returned
and `clearInterval` has not yet cleared, `nextHandle` the next handle `setInterval` returns.
The state of an unmounted component is kept so that a stale callback would be observable. -/
structure View where
  state : Option Dashboard
  mounted : Bool
  interval : Option Nat
  timers : List Nat
  nextHandle : Nat

/-- Before the component is first mounted. -/
def boot : View :=
  { state := none, mounted := false, interval := none, timers := [], nextHandle := 0 }

/-- What can happen to the view. -/
inductive Event where
  | mount (initial effect : Random)
  | tick (handle : Nat) (random : Random)
  | clickOneDay (random : Random)
  | clickSevenDays (random : Random)
  | unmount

/-- Whether the event is a mount. -/
def Event.isMount : Event → Bool
  | .mount _ _ => true
  | _ => false

/-- `clearInterval(handle)` on the host's timer table. -/
def clearInterval (handle : Option Nat) (timers : List Nat) : List Nat :=
  match handle with
  | none => timers
  | some h => timers.filter fun t => t != h

/-- One step of the view; `none` when the event cannot happen in this state or throws.
* `mount`: first render, then both effects (the `[viewDays]` effect regenerates the series,
  the `[]` effect calls `setInterval`).
* `tick handle`: the host fires the callback of a timer that is still scheduled.
* `clickOneDay`, `clickSevenDays`: the two buttons, available while mounted.
* `unmount`: the cleanup `() => clearInterval(interval)` runs. -/
def step (v : View) : Event → Option View
  | .mount initial effect =>
    if v.mounted then none
    else some
      { state := some (regenerate effect (initialState initial))
        mounted := true
        interval := some v.nextHandle
        timers := v.nextHandle :: v.timers
        nextHandle := v.nextHandle + 1 }
  | .tick handle random =>
    if handle ∈ v.timers then
      (v.state.bind (tick random)).map fun s => { v with state := some s }
    else none
  | .clickOneDay random =>
    if v.mounted then v.state.map fun s => { v with state := some (setViewDays 1 random s) }
    else none
  | .clickSevenDays random =>
    if v.mounted then v.state.map fun s => { v with state := some (setViewDays 7 random s) }
    else none
  | .unmount =>
    if v.mounted then
      some { v with
        mounted := false
        interval := none
        timers := clearInterval v.interval v.timers }
    else none

/-- Run a sequence of events, oldest first. -/
def run (v : View) : List Event → Option View
  | [] => some v
  | e :: es => (step v e).bind fun w => run w es

/-- The component states the mounted view can reach. -/
def Reachable (s : Dashboard) : Prop :=
  ∃ (events : List Event) (v : View),
    run boot events = some v ∧ v.mounted = true ∧ v.state = some s

/-! ## Status panel -/

/-- The three glyphs of the icon library that the panel uses. -/
inductive Icon where
  | CheckCircle
  | Pause
  | AlertCircle
deriving DecidableEq, Repr

/-- JavaScript truthiness of an optional string: `null`, `undefined` and `''` are falsy. -/
def truthy : Option String → Bool
  | none => false
  | some s => s != ""

/-- The three `printStatus === '...' && <Icon />` children, in source order; a `false`
child renders nothing. -/
def statusIcons (printStatus : String) : List Icon :=
  (if printStatus = "Printing" then [Icon.CheckCircle] else []) ++
  (if printStatus = "Paused" then [Icon.Pause] else []) ++
  (if printStatus = "Failed" then [Icon.AlertCircle] else [])

/-- What the status panel shows. `failureRow` is the text of the failure-reason row when
that row is rendered. -/
structure StatusPanel where
  printName : String
  icons : List Icon
  statusText : String
  completionText : String
  barWidth : String
  remainingTime : String
  failureRow : Option String
deriving DecidableEq, Repr

/-- The status panel of the rendered `Dashboard`. -/
def renderStatusPanel (s : Dashboard) : StatusPanel :=
  { printName := s.printName
    icons := statusIcons s.printStatus
    statusText := s.printStatus
    completionText := toString s.printCompletion ++ "%"
    barWidth := toString s.printCompletion ++ "%"
    remainingTime := s.remainingTime
    failureRow := if truthy s.failureReason then s.failureReason else none }


/-- A tick followed by a window change to `d`. -/
def tickThenChange (d : Nat) (tickRandom changeRandom : Random) (s : Dashboard) :
    Option Dashboard :=
  (tick tickRandom s).map (setViewDays d changeRandom)

/-- A window change to `d` followed by a tick. -/
def changeThenTick (d : Nat) (tickRandom changeRandom : Random) (s : Dashboard) :
    Option Dashboard :=
  tick tickRandom (setViewDays d changeRandom s)

/-! ## Invariants -/

/-- The timer table holds exactly the handle of the mounted view, and nothing when the view
is not mounted. -/
def TimerInv (v : View) : Prop :=
  (v.mounted = true → ∃ h, v.interval = some h ∧ v.timers = [h]) ∧
  (v.mounted = false → v.interval = none ∧ v.timers = [])

/-- Each sample's time is the binary64 sum of the previous sample's time and 5. -/
def FiveApart (series : List Sample) : Prop :=
  List.Chain' (fun a b : Sample => b.time = roundBinary64 (a.time + 5)) series

/-- The invariant of the component state: the selector is 1 or 7, the series has
`288 * viewDays` samples, and each time is the binary64 sum of the previous time and 5. -/
def SeriesInv (s : Dashboard) : Prop :=
  (s.viewDays = 1 ∨ s.viewDays = 7) ∧
  s.tempData.length = 288 * s.viewDays ∧
  FiveApart s.tempData

/-! ## Concrete inputs -/

/-- A random source that always returns `0`. -/
def zeroRandom : Random := fun _ => ⟨0, 0⟩

/-- A random source that always returns `1 - 2 ^ (-53)`, the largest double below `1`. -/
def topRandom : Random := fun _ => ⟨2 ^ 53 - 1, 53⟩

/-- Mount, let the timer fire once, unmount. -/
def sessionEvents : List Event :=
  [.mount zeroRandom zeroRandom, .tick 0 zeroRandom, .unmount]

/-- The view at the end of `sessionEvents`. -/
def sessionEnd : View :=
  { state := some
      { initialState zeroRandom with
        tempData := (generateTemperatureData 1 zeroRandom).drop 1 ++ [⟨1440, 60, 180⟩] }
    mounted := false
    interval := none
    timers := []
    nextHandle := 1 }

/-- Mount, tick, switch to the 7-day window, tick again. -/
def browseEvents : List Event :=
  [.mount zeroRandom zeroRandom, .tick 0 zeroRandom, .clickSevenDays zeroRandom,
    .tick 0 zeroRandom]

/-- The component state at the end of `browseEvents`. -/
def browseState : Dashboard :=
  { initialState zeroRandom with
    viewDays := 7
    tempData := (generateTemperatureData 7 zeroRandom).drop 1 ++ [⟨10080, 60, 180⟩] }

/-- The 1-day series after `k` ticks of `zeroRandom`, as long as every sum was exact. -/
def steadySeries (k : Nat) : List Sample :=
  (List.range 288).map fun i => ⟨5 * (i + k), 60, 180⟩

/-- The mounted view holding `steadySeries k`. -/
def steadyView (k : Nat) : View :=
  { state := some { initialState zeroRandom with tempData := steadySeries k }
    mounted := true
    interval := some 0
    timers := [0]
    nextHandle := 1 }

/-- The number of ticks after which the newest time is `2 ^ 53 - 2`, the largest multiple
of 5 below `2 ^ 53`. -/
def crossingTicks : Nat := 1801439850947911

/-- The component state one tick later: the newest time is `2 ^ 53 + 4`. -/
def crossingState : Dashboard :=
  { initialState zeroRandom with
    tempData := (steadySeries crossingTicks).drop 1 ++ [⟨2 ^ 53 + 4, 60, 180⟩] }

/-! ## Binary64 rounding -/

theorem bitLengthAux_le (fuel n k : Nat) (h : n < 2 ^ k) : bitLengthAux fuel n ≤ k := by
  induction fuel generalizing n k with
  | zero => simp [bitLengthAux]
  | succ fuel ih =>
    simp only [bitLengthAux]
    split
    · omega
    · rename_i hn
      cases k with
      | zero => simp at h; omega
      | succ k =>
        have : n / 2 < 2 ^ k := by
          rw [Nat.div_lt_iff_lt_mul (by decide)]
          rw [pow_succ] at h
          exact h
        have := ih (n / 2) k this
        omega

theorem bitLength_le (n k : Nat) (h : n < 2 ^ k) : bitLength n ≤ k :=
  bitLengthAux_le n n k h

theorem roundBinary64_cases (n : Nat) :
    roundBinary64 n = n / 2 ^ (bitLength n - 53) * 2 ^ (bitLength n - 53) ∨
    roundBinary64 n = (n / 2 ^ (bitLength n - 53) + 1) * 2 ^ (bitLength n - 53) ∧
      n % 2 ^ (bitLength n - 53) ≠ 0 ∧
      2 ^ (bitLength n - 53) ≤ 2 * (n % 2 ^ (bitLength n - 53)) := by
  unfold roundBinary64
  simp only
  have hpos : 0 < 2 ^ (bitLength n - 53) := by positivity
  split
  · exact Or.inl rfl
  · split
    · split
      · exact Or.inl rfl
      · refine Or.inr ⟨rfl, ?_, ?_⟩ <;> omega
    · refine Or.inr ⟨rfl, ?_, ?_⟩ <;> omega

/-- Rounding does not cross a value on a grid at least as coarse as the rounding grid:
from above. -/
theorem roundBinary64_le (n e c : Nat) (h : n ≤ c * 2 ^ e) (hs : bitLength n - 53 ≤ e) :
    roundBinary64 n ≤ c * 2 ^ e := by
  have hc := roundBinary64_cases n
  generalize bitLength n - 53 = s at hc hs
  obtain ⟨j, rfl⟩ : ∃ j, e = s + j := ⟨e - s, by omega⟩
  have hgrid : c * 2 ^ (s + j) = (c * 2 ^ j) * 2 ^ s := by ring
  rw [hgrid] at h ⊢
  have hpos : 0 < 2 ^ s := by positivity
  rcases hc with h0 | ⟨h1, hrem, _⟩
  · rw [h0]
    exact le_trans (Nat.div_mul_le_self n (2 ^ s)) h
  · rw [h1]
    have hlt : n < c * 2 ^ j * 2 ^ s := by
      rcases Nat.lt_or_eq_of_le h with hlt | heq
      · exact hlt
      · exact absurd (by rw [heq]; exact Nat.mul_mod_left _ _) hrem
    have : n / 2 ^ s < c * 2 ^ j := (Nat.div_lt_iff_lt_mul hpos).mpr hlt
    exact Nat.mul_le_mul_right _ this

/-- Rounding does not cross a value on a grid at least as coarse as the rounding grid:
from below. -/
theorem le_roundBinary64 (n e c : Nat) (h : c * 2 ^ e ≤ n) (hs : bitLength n - 53 ≤ e) :
    c * 2 ^ e ≤ roundBinary64 n := by
  have hc := roundBinary64_cases n
  generalize bitLength n - 53 = s at hc hs
  obtain ⟨j, rfl⟩ : ∃ j, e = s + j := ⟨e - s, by omega⟩
  have hgrid : c * 2 ^ (s + j) = (c * 2 ^ j) * 2 ^ s := by ring
  rw [hgrid] at h ⊢
  have hpos : 0 < 2 ^ s := by positivity
  have hq : c * 2 ^ j ≤ n / 2 ^ s := (Nat.le_div_iff_mul_le hpos).mpr h
  rcases hc with h0 | ⟨h1, _⟩
  · rw [h0]
    exact Nat.mul_le_mul_right _ hq
  · rw [h1]
    exact Nat.mul_le_mul_right _ (by omega)

/-- Integers up to `2 ^ 53` are doubles: rounding leaves them unchanged. -/
theorem roundBinary64_eq_self (n : Nat) (h : n ≤ 2 ^ 53) : roundBinary64 n = n := by
  rcases Nat.lt_or_eq_of_le h with hlt | rfl
  · have hb := bitLength_le n 53 hlt
    unfold roundBinary64
    simp [show bitLength n - 53 = 0 by omega, Nat.mod_one]
  · decide

/-- Rounding moves a value up by at most half a step of the rounding grid. -/
theorem two_mul_roundBinary64_le (n : Nat) :
    2 * roundBinary64 n ≤ 2 * n + 2 ^ (bitLength n - 53) := by
  have hc := roundBinary64_cases n
  generalize bitLength n - 53 = s at hc
  have hpos : 0 < 2 ^ s := by positivity
  have hdm := Nat.div_add_mod n (2 ^ s)
  rw [Nat.mul_comm] at hdm
  rcases hc with h0 | ⟨h1, _, hhalf⟩
  · rw [h0]; omega
  · rw [h1, Nat.add_mul]; omega

/-- The floor of a rounded value is `q` when the value lies in `[q, q + 1)` and more than
half a rounding step below `q + 1`. -/
theorem floor_roundBinary64 (n q e : Nat) (hlo : q * 2 ^ e ≤ n) (hs : bitLength n - 53 ≤ e)
    (hhi : 2 * n + 2 ^ (bitLength n - 53) < 2 * ((q + 1) * 2 ^ e)) :
    roundBinary64 n / 2 ^ e = q := by
  have h1 := le_roundBinary64 n e q hlo hs
  have h2 := two_mul_roundBinary64_le n
  have hpos : 0 < 2 ^ e := by positivity
  apply Nat.div_eq_of_lt_le
  · exact h1
  · omega

/-- For a safe integer `t`, `Math.floor(t / 60)` is the integer quotient. -/
theorem floor_divNat_sixty (t : Nat) (ht : t < 2 ^ 53) :
    (divNat t 60).floor = t / 60 := by
  have hb : bitLength 60 = 6 := by decide
  simp only [divNat, Binary64.floor, hb]
  show roundBinary64 (2 * (t * 2 ^ 70 / 60) +
    (if t * 2 ^ 70 % 60 = 0 then 0 else 1)) / 2 ^ 71 = t / 60
  generalize hσ : (if t * 2 ^ 70 % 60 = 0 then 0 else 1) = σ
  have hσ1 : σ ≤ 1 := by rw [← hσ]; split <;> decide
  clear hσ
  have hn : 2 * (t * 2 ^ 70 / 60) + σ < 2 ^ 119 := by omega
  have hbl := bitLength_le _ _ hn
  have hpow : 2 ^ (bitLength (2 * (t * 2 ^ 70 / 60) + σ) - 53) ≤ 2 ^ 66 :=
    Nat.pow_le_pow_right (by decide) (by omega)
  generalize hS : 2 ^ (bitLength (2 * (t * 2 ^ 70 / 60) + σ) - 53) = S at hpow
  refine floor_roundBinary64 _ (t / 60) 71 ?_ ?_ ?_
  · omega
  · omega
  · rw [hS]; omega

/-- For a safe integer `h`, `Math.floor(h / 24)` is the integer quotient. -/
theorem floor_divNat_twentyfour (h : Nat) (hh : h < 2 ^ 53) :
    (divNat h 24).floor = h / 24 := by
  have hb : bitLength 24 = 5 := by decide
  simp only [divNat, Binary64.floor, hb]
  show roundBinary64 (2 * (h * 2 ^ 69 / 24) +
    (if h * 2 ^ 69 % 24 = 0 then 0 else 1)) / 2 ^ 70 = h / 24
  generalize hσ : (if h * 2 ^ 69 % 24 = 0 then 0 else 1) = σ
  have hσ1 : σ ≤ 1 := by rw [← hσ]; split <;> decide
  clear hσ
  have hn : 2 * (h * 2 ^ 69 / 24) + σ < 2 ^ 119 := by omega
  have hbl := bitLength_le _ _ hn
  have hpow : 2 ^ (bitLength (2 * (h * 2 ^ 69 / 24) + σ) - 53) ≤ 2 ^ 66 :=
    Nat.pow_le_pow_right (by decide) (by omega)
  generalize hS : 2 ^ (bitLength (2 * (h * 2 ^ 69 / 24) + σ) - 53) = S at hpow
  refine floor_roundBinary64 _ (h / 24) 70 ?_ ?_ ?_
  · omega
  · omega
  · rw [hS]; omega

/-- A decimal that rounds to a safe integer is that integer. -/
theorem eq_of_roundBinary64_eq (v x : Nat) (hx : x < 2 ^ 53) (hv : v < 2 ^ 106)
    (h : roundBinary64 v = x) : v = x := by
  by_cases hlt : v ≤ 2 ^ 53
  · rw [roundBinary64_eq_self v hlt] at h
    exact h
  · have hb := bitLength_le v 106 hv
    have := le_roundBinary64 v 53 1 (by omega) (by omega)
    omega

/-- Below `2 ^ 53` the shortest decimal that rounds to an integer is the integer. -/
theorem shortestDecimal_of_lt (x : Nat) (hx : x < 2 ^ 53) : shortestDecimal x = x := by
  unfold shortestDecimal
  simp only
  have hd16 : (Nat.toDigits 10 x).length ≤ 16 :=
    Nat.toDigitsCore_length 10 (by decide) _ x 16 (by omega) (by decide)
  generalize (Nat.toDigits 10 x).length = d at hd16
  cases hc : (List.range 17).findSome? _ with
  | none => rfl
  | some v =>
    simp only [Option.getD_some]
    obtain ⟨i, _, hi⟩ := List.exists_of_findSome?_eq_some hc
    have hunit : 10 ^ (d - (i + 1)) ≤ 10 ^ 16 := Nat.pow_le_pow_right (by decide) (by omega)
    generalize 10 ^ (d - (i + 1)) = unit at hi hunit
    have hlo : x / unit * unit ≤ x := Nat.div_mul_le_self x unit
    split_ifs at hi <;> cases hi <;>
      exact eq_of_roundBinary64_eq _ x hx (by omega) (by assumption)

/-- For a safe integer, `toString` gives the decimal numeral. -/
theorem numberToString_of_lt (x : Nat) (hx : x < 2 ^ 53) : numberToString x = toString x := by
  unfold numberToString
  simp only [shortestDecimal_of_lt x hx]
  rw [if_pos (by omega)]
  rfl

/-! ## Lemmas on the generator -/

theorem generate_length (d : Nat) (random : Random) :
    (generateTemperatureData d random).length = if d = 1 then 288 else 288 * 7 := by
  simp [generateTemperatureData]

theorem generate_times (d : Nat) (random : Random) :
    times (generateTemperatureData d random) =
      (List.range (if d = 1 then 288 else 288 * 7)).map fun i => i * 5 := by
  simp [times, generateTemperatureData, List.map_map, Function.comp_def]

/-- C1: for window selector `d ∈ {1, 7}` and any random source the generated series has
exactly `288 * d` samples, the sample at index `i` has `time = 5 * i`, and the time fields
are `0, 5, 10, ...`. -/
theorem generateTemperatureData_length_and_times (d : Nat) (hd : d = 1 ∨ d = 7)
    (random : Random) :
    (generateTemperatureData d random).length = 288 * d ∧
    (∀ i, i < 288 * d →
      ((generateTemperatureData d random).get? i).map Sample.time = some (5 * i)) ∧
    times (generateTemperatureData d random) = (List.range (288 * d)).map fun i => 5 * i := by
  rcases hd with rfl | rfl
  · refine ⟨by simp [generate_length], ?_, ?_⟩
    · intro i hi
      simp [generateTemperatureData, List.getElem?_map, List.getElem?_range, hi, Nat.mul_comm]
    · simp [generate_times, Nat.mul_comm]
  · refine ⟨by simp [generate_length], ?_, ?_⟩
    · intro i hi
      simp [generateTemperatureData, List.getElem?_map, List.getElem?_range, hi, Nat.mul_comm]
    · simp [generate_times, Nat.mul_comm]

theorem generateTemperatureData_length_and_times_witness :
    (generateTemperatureData 7 zeroRandom).length = 288 * 7 ∧
    (∀ i, i < 288 * 7 →
      ((generateTemperatureData 7 zeroRandom).get? i).map Sample.time = some (5 * i)) ∧
    times (generateTemperatureData 7 zeroRandom) =
      (List.range (288 * 7)).map fun i => 5 * i :=
  generateTemperatureData_length_and_times 7 (Or.inr rfl) zeroRandom

/-! ## Refresh tick -/

/-- C4, as stated, fails: on the one-sample series whose time is `2 ^ 53`, itself a double,
the tick appends a sample with time `2 ^ 53 + 4`, not `2 ^ 53 + 5`. -/
theorem refreshTick_rounds_large_time :
    roundBinary64 (2 ^ 53) = 2 ^ 53 ∧
    refreshTick zeroRandom [⟨2 ^ 53, 60, 180⟩] = some [⟨2 ^ 53 + 4, 60, 180⟩] ∧
    ¬ ∃ s' last new, refreshTick zeroRandom [⟨2 ^ 53, 60, 180⟩] = some s' ∧
      [(⟨2 ^ 53, 60, 180⟩ : Sample)].getLast? = some last ∧
      s'.getLast? = some new ∧
      new.time = last.time + 5 := by
  have hrun : refreshTick zeroRandom [⟨2 ^ 53, 60, 180⟩] = some [⟨2 ^ 53 + 4, 60, 180⟩] := by
    decide
  refine ⟨by decide, hrun, ?_⟩
  rintro ⟨s', last, new, h1, h2, h3, h4⟩
  rw [hrun] at h1
  cases h1
  simp only [List.getLast?_singleton, Option.some.injEq] at h2 h3
  subst h2 h3
  simp at h4

/-- C4, amended: on a non-empty series one refresh tick succeeds, keeps the length, leaves
as the first `length - 1` elements the old series without its first sample, in order, and
appends a sample whose `time` is the binary64 sum of the old last sample's `time` and 5;
that sum is exactly `time + 5` whenever `time + 5` is at most `2 ^ 53`. -/
theorem refreshTick_slides_window (random : Random) (s : List Sample) (hs : s ≠ []) :
    ∃ s' last new, refreshTick random s = some s' ∧
      s'.length = s.length ∧
      s'.take (s.length - 1) = s.drop 1 ∧
      s.getLast? = some last ∧
      s'.getLast? = some new ∧
      new.time = roundBinary64 (last.time + 5) ∧
      (last.time + 5 ≤ 2 ^ 53 → new.time = last.time + 5) := by
  obtain ⟨last, hlast⟩ : ∃ last, s.getLast? = some last := by
    cases h : s.getLast? with
    | none => exact absurd (List.getLast?_eq_none_iff.mp h) hs
    | some a => exact ⟨a, rfl⟩
  have hlen : 0 < s.length := List.length_pos.mpr hs
  refine ⟨s.drop 1 ++ [⟨roundBinary64 (last.time + 5), randomBedTemp (random 0),
      randomNozzleTemp (random 1)⟩],
    last, ⟨roundBinary64 (last.time + 5), randomBedTemp (random 0),
      randomNozzleTemp (random 1)⟩,
    by simp [refreshTick, hlast], ?_, ?_, hlast, ?_, rfl, ?_⟩
  · simp only [List.length_append, List.length_drop, List.length_singleton]
    omega
  · have : s.length - 1 = (s.drop 1).length := by simp
    rw [this, List.take_left']
    rfl
  · simp
  · intro hsafe
    exact roundBinary64_eq_self _ hsafe

theorem refreshTick_slides_window_witness :
    ∃ s' last new, refreshTick zeroRandom [⟨0, 60, 180⟩, ⟨5, 61, 181⟩] = some s' ∧
      [(⟨0, 60, 180⟩ : Sample), ⟨5, 61, 181⟩].getLast? = some last ∧
      s'.getLast? = some new ∧
      new.time = last.time + 5 :=
  match refreshTick_slides_window zeroRandom [⟨0, 60, 180⟩, ⟨5, 61, 181⟩] (by decide) with
  | ⟨s', last, new, h1, _, _, h4, h5, _, h7⟩ =>
    ⟨s', last, new, h1, h4, h5, h7 (by
      have h : last = ⟨5, 61, 181⟩ := by
        simp only [List.getLast?_cons_cons, List.getLast?_singleton, Option.some.injEq] at h4
        exact h4.symm
      rw [h]
      decide)⟩

/-! ## Window change -/

/-- C5: a window-selector change replaces the series wholesale. From any state whose
selector is 1, selecting 7 leaves exactly a fresh `generateTemperatureData 7` result
(2016 samples, times `0, 5, ..., 10075`); from any state whose selector is 7, selecting 1
leaves exactly a fresh `generateTemperatureData 1` result (288 samples, times
`0, 5, ..., 1435`). Neither result depends on the series held before. -/
theorem setViewDays_replaces_series (s t : Dashboard) (hs : s.viewDays = 1)
    (ht : t.viewDays = 7) (random : Random) :
    ((setViewDays 7 random s).viewDays = 7 ∧
      (setViewDays 7 random s).tempData = generateTemperatureData 7 random ∧
      (setViewDays 7 random s).tempData.length = 2016 ∧
      times (setViewDays 7 random s).tempData = (List.range 2016).map (fun i => 5 * i) ∧
      (times (setViewDays 7 random s).tempData).getLast? = some 10075) ∧
    ((setViewDays 1 random t).viewDays = 1 ∧
      (setViewDays 1 random t).tempData = generateTemperatureData 1 random ∧
      (setViewDays 1 random t).tempData.length = 288 ∧
      times (setViewDays 1 random t).tempData = (List.range 288).map (fun i => 5 * i) ∧
      (times (setViewDays 1 random t).tempData).getLast? = some 1435) := by
  have h7 : (setViewDays 7 random s).tempData = generateTemperatureData 7 random := by
    simp [setViewDays, hs, regenerate]
  have h1 : (setViewDays 1 random t).tempData = generateTemperatureData 1 random := by
    simp [setViewDays, ht, regenerate]
  have t7 : times (generateTemperatureData 7 random) =
      (List.range 2016).map (fun i => 5 * i) := by
    simp [generate_times, Nat.mul_comm]
  have t1 : times (generateTemperatureData 1 random) = (List.range 288).map (fun i => 5 * i) := by
    simp [generate_times, Nat.mul_comm]
  refine ⟨⟨by simp [setViewDays, hs, regenerate], h7, ?_, ?_, ?_⟩,
    ⟨by simp [setViewDays, ht, regenerate], h1, ?_, ?_, ?_⟩⟩
  · rw [h7, generate_length]; rfl
  · rw [h7, t7]
  · rw [h7, t7]
    simp [List.getLast?_map, List.getLast?_range]
  · rw [h1, generate_length]; rfl
  · rw [h1, t1]
  · rw [h1, t1]
    simp [List.getLast?_map, List.getLast?_range]


theorem setViewDays_replaces_series_witness :
    (setViewDays 7 topRandom (initialState zeroRandom)).tempData.length = 2016 ∧
    (setViewDays 1 topRandom
      (setViewDays 7 topRandom (initialState zeroRandom))).tempData =
      generateTemperatureData 1 topRandom :=
  have h := setViewDays_replaces_series (initialState zeroRandom)
    (setViewDays 7 topRandom (initialState zeroRandom)) rfl rfl topRandom
  ⟨h.1.2.2.1, h.2.2.1⟩

/-! ## Status panel -/

/-- C6: the failure-reason row is rendered exactly when `failureReason` is present and
non-empty, whatever the status; and for each of the statuses Printing, Paused, Failed
exactly one icon is rendered, the one keyed by that status. -/
theorem renderStatusPanel_failure_row_and_icon (s : Dashboard) :
    ((renderStatusPanel s).failureRow.isSome = true ↔
      ∃ reason, s.failureReason = some reason ∧ reason ≠ "") ∧
    (∀ reason, (renderStatusPanel s).failureRow = some reason →
      s.failureReason = some reason) ∧
    (∀ status, (renderStatusPanel { s with printStatus := status }).failureRow =
      (renderStatusPanel s).failureRow) ∧
    (s.printStatus = "Printing" → (renderStatusPanel s).icons = [Icon.CheckCircle]) ∧
    (s.printStatus = "Paused" → (renderStatusPanel s).icons = [Icon.Pause]) ∧
    (s.printStatus = "Failed" → (renderStatusPanel s).icons = [Icon.AlertCircle]) := by
  refine ⟨?_, ?_, ?_, ?_, ?_, ?_⟩
  · cases h : s.failureReason with
    | none => simp [renderStatusPanel, truthy, h]
    | some r =>
      by_cases hr : r = ""
      · simp [renderStatusPanel, truthy, h, hr]
      · simp [renderStatusPanel, truthy, h, hr]
  · intro reason h
    simp only [renderStatusPanel] at h
    split at h
    · exact h
    · cases h
  · intro status
    rfl
  · intro h
    simp [renderStatusPanel, statusIcons, h]
  · intro h
    simp [renderStatusPanel, statusIcons, h]
  · intro h
    simp [renderStatusPanel, statusIcons, h]


theorem renderStatusPanel_failure_row_and_icon_witness :
    (renderStatusPanel (initialState zeroRandom)).icons = [Icon.Pause] ∧
    (renderStatusPanel (initialState zeroRandom)).failureRow.isSome = true :=
  have h := renderStatusPanel_failure_row_and_icon (initialState zeroRandom)
  ⟨h.2.2.2.2.1 rfl, h.1.mpr ⟨"spaghetti", rfl, by decide⟩⟩

/-! ## Timer lifecycle -/

theorem timerInv_boot : TimerInv boot := by
  simp [TimerInv, boot]

theorem timerInv_step (v w : View) (e : Event) (hv : TimerInv v) (h : step v e = some w) :
    TimerInv w := by
  cases e with
  | mount initial effect =>
    simp only [step] at h
    split at h
    · cases h
    · rename_i hm
      have hm' : v.mounted = false := by simpa using hm
      cases h
      simp [TimerInv, (hv.2 hm').2]
  | tick handle random =>
    simp only [step] at h
    split at h
    · simp only [Option.map_eq_some'] at h
      obtain ⟨s, _, rfl⟩ := h
      exact hv
    · cases h
  | clickOneDay random =>
    simp only [step] at h
    split at h
    · simp only [Option.map_eq_some'] at h
      obtain ⟨s, _, rfl⟩ := h
      exact hv
    · cases h
  | clickSevenDays random =>
    simp only [step] at h
    split at h
    · simp only [Option.map_eq_some'] at h
      obtain ⟨s, _, rfl⟩ := h
      exact hv
    · cases h
  | unmount =>
    simp only [step] at h
    split at h
    · rename_i hm
      obtain ⟨t, ht, htim⟩ := hv.1 hm
      cases h
      simp [TimerInv, clearInterval, ht, htim]
    · cases h

theorem timerInv_run (events : List Event) (v w : View) (hv : TimerInv v)
    (h : run v events = some w) : TimerInv w := by
  induction events generalizing v with
  | nil =>
    simp only [run, Option.some.injEq] at h
    exact h ▸ hv
  | cons e es ih =>
    simp only [run, Option.bind_eq_some] at h
    obtain ⟨u, hu, hrest⟩ := h
    exact ih u (timerInv_step v u e hv hu) hrest

theorem unmounted_refuses (v : View) (hv : TimerInv v) (hm : v.mounted = false) (e : Event)
    (he : e.isMount = false) : step v e = none := by
  cases e with
  | mount initial effect => simp [Event.isMount] at he
  | tick handle random => simp [step, (hv.2 hm).2]
  | clickOneDay random => simp [step, hm]
  | clickSevenDays random => simp [step, hm]
  | unmount => simp [step, hm]

/-- C7: in every view reached from boot by mount, tick, window-change and unmount events,
a tick fires only for the live handle of the mounted view; unmount releases that handle
and leaves the timer table empty; and once unmounted no tick can fire, so until the next
mount nothing modifies the series. -/
theorem timer_cancelled_on_unmount (events : List Event) (v : View)
    (h : run boot events = some v) :
    (v.mounted = true → ∃ handle, v.interval = some handle ∧ v.timers = [handle]) ∧
    (∀ handle random w, step v (.tick handle random) = some w →
      v.mounted = true ∧ v.interval = some handle) ∧
    (∀ w, step v .unmount = some w →
      w.mounted = false ∧ w.interval = none ∧ w.timers = [] ∧ w.state = v.state) ∧
    (v.mounted = false → ∀ handle random, step v (.tick handle random) = none) ∧
    (v.mounted = false → ∀ more w, (∀ e ∈ more, Event.isMount e = false) →
      run v more = some w → w = v) := by
  have hv : TimerInv v := timerInv_run events boot v timerInv_boot h
  refine ⟨hv.1, ?_, ?_, ?_, ?_⟩
  · intro handle random w hw
    cases hm : v.mounted with
    | false =>
      rw [unmounted_refuses v hv hm (.tick handle random) rfl] at hw
      cases hw
    | true =>
      obtain ⟨t, ht, htim⟩ := hv.1 hm
      simp only [step, htim, List.mem_singleton] at hw
      split at hw
      · rename_i heq
        exact ⟨rfl, by rw [ht, heq]⟩
      · cases hw
  · intro w hw
    have hw' := timerInv_step v w .unmount hv hw
    simp only [step] at hw
    split at hw
    · cases hw
      exact ⟨rfl, rfl, (hw'.2 rfl).2, rfl⟩
    · cases hw
  · intro hm handle random
    exact unmounted_refuses v hv hm (.tick handle random) rfl
  · intro hm more w hmore hw
    cases more with
    | nil =>
      simp only [run, Option.some.injEq] at hw
      exact hw.symm
    | cons e es =>
      simp only [run] at hw
      rw [unmounted_refuses v hv hm e (hmore e (List.mem_cons_self _ _))] at hw
      cases hw

theorem timer_cancelled_on_unmount_witness :
    run boot sessionEvents = some sessionEnd ∧
    step sessionEnd (.tick 0 zeroRandom) = none :=
  ⟨rfl, (timer_cancelled_on_unmount sessionEvents sessionEnd rfl).2.2.2.1 rfl 0 zeroRandom⟩


/-! ## The series invariant -/

theorem generate_fiveApart (d : Nat) (random : Random) :
    FiveApart (generateTemperatureData d random) := by
  unfold FiveApart generateTemperatureData
  rw [List.chain'_map]
  split
  · rw [show (288 : Nat) = Nat.succ 287 from rfl, List.chain'_range_succ]
    intro m hm
    simp only [Nat.succ_eq_add_one]
    rw [roundBinary64_eq_self _ (by omega)]
    omega
  · rw [show (288 * 7 : Nat) = Nat.succ 2015 from rfl, List.chain'_range_succ]
    intro m hm
    simp only [Nat.succ_eq_add_one]
    rw [roundBinary64_eq_self _ (by omega)]
    omega

theorem seriesInv_regenerate (random : Random) (s : Dashboard)
    (hd : s.viewDays = 1 ∨ s.viewDays = 7) : SeriesInv (regenerate random s) := by
  refine ⟨hd, ?_, generate_fiveApart _ _⟩
  show (generateTemperatureData s.viewDays random).length = 288 * s.viewDays
  rw [generate_length]
  rcases hd with h | h <;> simp [h]

theorem seriesInv_setViewDays (d : Nat) (hd : d = 1 ∨ d = 7) (random : Random)
    (s : Dashboard) (hs : SeriesInv s) : SeriesInv (setViewDays d random s) := by
  unfold setViewDays
  split
  · exact hs
  · exact seriesInv_regenerate random _ hd

theorem refreshTick_fiveApart (random : Random) (l l' : List Sample) (hl : FiveApart l)
    (h : refreshTick random l = some l') : FiveApart l' := by
  unfold refreshTick at h
  split at h
  · cases h
  · rename_i last hlast
    cases h
    unfold FiveApart
    rw [List.chain'_append]
    refine ⟨List.Chain'.drop hl 1, List.chain'_singleton _, ?_⟩
    intro x hx y hy
    rw [List.getLast?_drop] at hx
    split at hx
    · cases hx
    · rw [hlast] at hx
      simp only [List.head?_cons, Option.mem_def, Option.some.injEq] at hx hy
      subst hx hy
      rfl

theorem refreshTick_length (random : Random) (l l' : List Sample)
    (h : refreshTick random l = some l') : l'.length = l.length := by
  unfold refreshTick at h
  split at h
  · cases h
  · rename_i last hlast
    cases h
    have hne : l ≠ [] := by
      intro hnil
      rw [hnil] at hlast
      cases hlast
    have := List.length_pos.mpr hne
    simp only [List.length_append, List.length_drop, List.length_singleton]
    omega

theorem seriesInv_tick (random : Random) (s s' : Dashboard) (hs : SeriesInv s)
    (h : tick random s = some s') : SeriesInv s' := by
  unfold tick at h
  simp only [Option.map_eq_some'] at h
  obtain ⟨data, hdata, rfl⟩ := h
  refine ⟨hs.1, ?_, refreshTick_fiveApart random _ _ hs.2.2 hdata⟩
  show data.length = 288 * s.viewDays
  rw [refreshTick_length random _ _ hdata]
  exact hs.2.1

theorem tick_defined (random : Random) (s : Dashboard) (hs : SeriesInv s) :
    ∃ s', tick random s = some s' := by
  have hne : s.tempData ≠ [] := by
    intro hnil
    have := hs.2.1
    rw [hnil] at this
    rcases hs.1 with h | h <;> simp [h] at this
  cases hlast : s.tempData.getLast? with
  | none => exact absurd (List.getLast?_eq_none_iff.mp hlast) hne
  | some last =>
    refine ⟨{ s with tempData := s.tempData.drop 1 ++
      [⟨roundBinary64 (last.time + 5), randomBedTemp (random 0),
        randomNozzleTemp (random 1)⟩] }, ?_⟩
    simp [tick, refreshTick, hlast]

theorem seriesInv_step (v w : View) (e : Event) (hv : ∀ s, v.state = some s → SeriesInv s)
    (h : step v e = some w) : ∀ s, w.state = some s → SeriesInv s := by
  intro s hs
  cases e with
  | mount initial effect =>
    simp only [step] at h
    split at h
    · cases h
    · cases h
      simp only [Option.some.injEq] at hs
      subst hs
      exact seriesInv_regenerate effect _ (Or.inl rfl)
  | tick handle random =>
    simp only [step] at h
    split at h
    · simp only [Option.map_eq_some', Option.bind_eq_some] at h
      obtain ⟨t, ⟨u, hu, hut⟩, rfl⟩ := h
      simp only [Option.some.injEq] at hs
      subst hs
      exact seriesInv_tick random u _ (hv u hu) hut
    · cases h
  | clickOneDay random =>
    simp only [step] at h
    split at h
    · simp only [Option.map_eq_some'] at h
      obtain ⟨u, hu, rfl⟩ := h
      simp only [Option.some.injEq] at hs
      subst hs
      exact seriesInv_setViewDays 1 (Or.inl rfl) random u (hv u hu)
    · cases h
  | clickSevenDays random =>
    simp only [step] at h
    split at h
    · simp only [Option.map_eq_some'] at h
      obtain ⟨u, hu, rfl⟩ := h
      simp only [Option.some.injEq] at hs
      subst hs
      exact seriesInv_setViewDays 7 (Or.inr rfl) random u (hv u hu)
    · cases h
  | unmount =>
    simp only [step] at h
    split at h
    · cases h
      exact hv s hs
    · cases h

theorem seriesInv_run (events : List Event) (v w : View)
    (hv : ∀ s, v.state = some s → SeriesInv s) (h : run v events = some w) :
    ∀ s, w.state = some s → SeriesInv s := by
  induction events generalizing v with
  | nil =>
    simp only [run, Option.some.injEq] at h
    exact h ▸ hv
  | cons e es ih =>
    simp only [run, Option.bind_eq_some] at h
    obtain ⟨u, hu, hrest⟩ := h
    exact ih u (seriesInv_step v u e hv hu) hrest

theorem seriesInv_of_reachable (s : Dashboard) (h : Reachable s) : SeriesInv s := by
  obtain ⟨events, v, hrun, _, hstate⟩ := h
  exact seriesInv_run events boot v (by simp [boot]) hrun s hstate

theorem drop_one_map_range {α : Type} (f : Nat → α) (n : Nat) :
    ((List.range (n + 1)).map f).drop 1 ++ [f (n + 1)] =
      (List.range (n + 1)).map fun i => f (i + 1) := by
  conv_lhs => rw [List.range_succ_eq_map]
  conv_rhs => rw [List.range_succ]
  simp [List.map_map, Function.comp_def]

theorem generate_eq_steadySeries : generateTemperatureData 1 zeroRandom = steadySeries 0 := by
  have hbed : randomBedTemp (zeroRandom 0) = 60 := by decide
  have hnozzle : randomNozzleTemp (zeroRandom 0) = 180 := by decide
  simp only [generateTemperatureData, steadySeries, if_true]
  apply List.map_congr_left
  intro i _
  show Sample.mk (i * 5) (randomBedTemp (zeroRandom 0)) (randomNozzleTemp (zeroRandom 0)) = _
  rw [hbed, hnozzle, Nat.mul_comm, Nat.add_zero]

theorem refreshTick_steadySeries_any (k : Nat) :
    refreshTick zeroRandom (steadySeries k) =
      some ((steadySeries k).drop 1 ++ [⟨roundBinary64 (5 * (287 + k) + 5), 60, 180⟩]) := by
  have hbed : randomBedTemp (zeroRandom 0) = 60 := by decide
  have hnozzle : randomNozzleTemp (zeroRandom 1) = 180 := by decide
  have hlast : (steadySeries k).getLast? = some ⟨5 * (287 + k), 60, 180⟩ := by
    simp [steadySeries, List.getLast?_map, List.getLast?_range]
  simp only [refreshTick, hlast, hbed, hnozzle]

theorem steadySeries_succ (k : Nat) :
    (steadySeries k).drop 1 ++ [⟨5 * (287 + k) + 5, 60, 180⟩] = steadySeries (k + 1) := by
  have h := drop_one_map_range (fun i => (⟨5 * (i + k), 60, 180⟩ : Sample)) 287
  have hlast : (⟨5 * (287 + 1 + k), 60, 180⟩ : Sample) = ⟨5 * (287 + k) + 5, 60, 180⟩ := by
    rw [show 5 * (287 + 1 + k) = 5 * (287 + k) + 5 by omega]
  rw [hlast] at h
  refine h.trans ?_
  unfold steadySeries
  apply List.map_congr_left
  intro i _
  rw [show i + 1 + k = i + (k + 1) by omega]

theorem step_steadyView_any (k : Nat) :
    step (steadyView k) (.tick 0 zeroRandom) =
      some { steadyView k with
        state := some { initialState zeroRandom with
          tempData := (steadySeries k).drop 1 ++
            [⟨roundBinary64 (5 * (287 + k) + 5), 60, 180⟩] } } := by
  simp [step, steadyView, tick, refreshTick_steadySeries_any k]

theorem step_steadyView (k : Nat) (h : 5 * (288 + k) ≤ 2 ^ 53) :
    step (steadyView k) (.tick 0 zeroRandom) = some (steadyView (k + 1)) := by
  rw [step_steadyView_any, roundBinary64_eq_self _ (by omega), steadySeries_succ]
  rfl

theorem step_mount_boot :
    step boot (.mount zeroRandom zeroRandom) = some (steadyView 0) := by
  simp [step, boot, steadyView, regenerate, initialState, generate_eq_steadySeries]

theorem run_steadyView (j k : Nat) (h : 5 * (287 + k + j) ≤ 2 ^ 53) :
    run (steadyView k) (List.replicate j (.tick 0 zeroRandom)) = some (steadyView (k + j)) := by
  induction j generalizing k with
  | zero => rfl
  | succ j ih =>
    rw [List.replicate_succ, run, step_steadyView k (by omega), Option.some_bind,
      ih (k + 1) (by omega), show k + 1 + j = k + (j + 1) by omega]

theorem run_mount_ticks (j : Nat) (h : 5 * (287 + j) ≤ 2 ^ 53) :
    run boot (.mount zeroRandom zeroRandom :: List.replicate j (.tick 0 zeroRandom)) =
      some (steadyView j) := by
  rw [run, step_mount_boot, Option.some_bind, run_steadyView j 0 (by omega), Nat.zero_add]

theorem run_snoc (v : View) (es : List Event) (e : Event) :
    run v (es ++ [e]) = (run v es).bind fun w => step w e := by
  induction es generalizing v with
  | nil =>
    simp only [List.nil_append, run, Option.some_bind]
    cases step v e <;> rfl
  | cons e' es ih =>
    simp only [List.cons_append, run]
    cases step v e' with
    | none => rfl
    | some w => exact ih w

set_option maxRecDepth 20000 in
/-- C8, as stated, fails: after `crossingTicks + 1` ticks from the freshly mounted view the
last two samples have times `2 ^ 53 - 2` and `2 ^ 53 + 4`, which differ by 6. -/
theorem spacing_breaks_beyond_safe_integers :
    Reachable crossingState ∧
    crossingState.tempData.get? 286 = some ⟨2 ^ 53 - 2, 60, 180⟩ ∧
    crossingState.tempData.get? 287 = some ⟨2 ^ 53 + 4, 60, 180⟩ ∧
    ¬ ∀ i a b, crossingState.tempData.get? i = some a →
      crossingState.tempData.get? (i + 1) = some b → b.time = a.time + 5 := by
  have h286 : crossingState.tempData.get? 286 = some ⟨2 ^ 53 - 2, 60, 180⟩ := by decide
  have h287 : crossingState.tempData.get? 287 = some ⟨2 ^ 53 + 4, 60, 180⟩ := by decide
  refine ⟨?_, h286, h287, ?_⟩
  · refine ⟨(.mount zeroRandom zeroRandom ::
        List.replicate crossingTicks (.tick 0 zeroRandom)) ++ [.tick 0 zeroRandom],
      { steadyView crossingTicks with state := some crossingState }, ?_, rfl, rfl⟩
    have hround : roundBinary64 (5 * (287 + crossingTicks) + 5) = 2 ^ 53 + 4 := by decide
    rw [run_snoc, run_mount_ticks crossingTicks (by decide), Option.some_bind,
      step_steadyView_any, hround]
    rfl
  · intro hall
    have := hall 286 _ _ h286 h287
    revert this
    decide

/-- C8, amended: in every reachable component state the selector is 1 or 7, the series has
exactly `288 * viewDays` samples, so it is not empty and a tick is always defined, and the
time of each sample is the binary64 sum of the previous sample's time and 5; that is
exactly 5 more whenever the previous time plus 5 is at most `2 ^ 53`. -/
theorem reachable_length_and_spacing (s : Dashboard) (h : Reachable s) :
    (s.viewDays = 1 ∨ s.viewDays = 7) ∧
    s.tempData.length = 288 * s.viewDays ∧
    s.tempData ≠ [] ∧
    (∀ random, ∃ s', tick random s = some s') ∧
    (∀ i a b, s.tempData.get? i = some a → s.tempData.get? (i + 1) = some b →
      b.time = roundBinary64 (a.time + 5) ∧ (a.time + 5 ≤ 2 ^ 53 → b.time = a.time + 5)) := by
  have hs := seriesInv_of_reachable s h
  refine ⟨hs.1, hs.2.1, ?_, ?_, ?_⟩
  · intro hnil
    have := hs.2.1
    rw [hnil] at this
    rcases hs.1 with h1 | h1 <;> simp [h1] at this
  · intro random
    exact tick_defined random s hs
  · intro i a b ha hb
    have hchain := hs.2.2
    unfold FiveApart at hchain
    rw [List.chain'_iff_get] at hchain
    rw [List.get?_eq_some] at ha hb
    obtain ⟨hi, rfl⟩ := ha
    obtain ⟨hi', rfl⟩ := hb
    have hstep := hchain i (by omega)
    refine ⟨hstep, fun hsafe => ?_⟩
    rw [hstep]
    exact roundBinary64_eq_self _ hsafe

set_option maxRecDepth 20000 in
theorem reachable_length_and_spacing_witness :
    Reachable browseState ∧
    browseState.tempData.length = 288 * 7 ∧
    (∀ random, ∃ s', tick random browseState = some s') :=
  have h : Reachable browseState :=
    ⟨browseEvents, { steadyView 0 with state := some browseState }, rfl, rfl, rfl⟩
  have hall := reachable_length_and_spacing browseState h
  ⟨h, hall.2.1, hall.2.2.2.1⟩

/-! ## Tick and window change in either order -/

theorem times_refreshTick_generate (d : Nat) (random random' : Random) (l : List Sample)
    (h : refreshTick random (generateTemperatureData d random') = some l) :
    times l = (List.range (if d = 1 then 288 else 288 * 7)).map fun i => 5 * i + 5 := by
  unfold refreshTick at h
  split at h
  · cases h
  · rename_i last hlast
    cases h
    have hl : (times (generateTemperatureData d random')).getLast? = some last.time := by
      simp [times, List.getLast?_map, hlast]
    have ht := generate_times d random'
    rw [ht, List.getLast?_map, List.getLast?_range] at hl
    have hd : times ((generateTemperatureData d random').drop 1) =
        ((List.range (if d = 1 then 288 else 288 * 7)).map fun i => i * 5).drop 1 := by
      rw [← ht]
      simp [times, List.map_drop]
    simp only [times, List.map_append, List.map_cons, List.map_nil] at hd ⊢
    rw [hd]
    split at hl
    · rename_i h1
      simp only [h1, if_true] at hl ⊢
      simp only [Nat.reduceEqDiff, if_false, Option.map_some', Option.some.injEq] at hl
      rw [← hl, show roundBinary64 ((288 - 1) * 5 + 5) = 288 * 5 by decide]
      have := drop_one_map_range (fun i => i * 5) 287
      simp only [Nat.reduceAdd] at this
      rw [this]
      apply List.map_congr_left
      intro i _
      omega
    · rename_i h1
      simp only [h1, if_false] at hl ⊢
      simp only [Nat.reduceMul, Nat.reduceEqDiff, if_false, Option.map_some',
        Option.some.injEq] at hl
      rw [← hl, show roundBinary64 ((2016 - 1) * 5 + 5) = 2016 * 5 by decide]
      have := drop_one_map_range (fun i => i * 5) 2015
      simp only [Nat.reduceAdd] at this
      rw [this]
      apply List.map_congr_left
      intro i _
      omega

set_option maxRecDepth 20000 in
/-- C9, as stated, fails: at the freshly mounted state, a tick followed by a change to the
7-day window leaves times starting at `0`, while the change followed by a tick leaves
times starting at `5`. -/
theorem tick_change_order_matters :
    Reachable (regenerate zeroRandom (initialState zeroRandom)) ∧
    (tickThenChange 7 zeroRandom zeroRandom
        (regenerate zeroRandom (initialState zeroRandom))).map (fun s => times s.tempData) ≠
      (changeThenTick 7 zeroRandom zeroRandom
        (regenerate zeroRandom (initialState zeroRandom))).map (fun s => times s.tempData) := by
  refine ⟨⟨[.mount zeroRandom zeroRandom], _, rfl, rfl, rfl⟩, ?_⟩
  intro h
  have h' := congrArg (fun o : Option (List Nat) => o.map List.head?) h
  have hl : ((tickThenChange 7 zeroRandom zeroRandom
      (regenerate zeroRandom (initialState zeroRandom))).map
        (fun s => times s.tempData)).map List.head? = some (some 0) := rfl
  have hr : ((changeThenTick 7 zeroRandom zeroRandom
      (regenerate zeroRandom (initialState zeroRandom))).map
        (fun s => times s.tempData)).map List.head? = some (some 5) := rfl
  simp only [hl, hr] at h'
  cases h'

/-- C9, amended: for every reachable state and `d ∈ {1, 7}` both orders are defined and
leave the same selector `d` and the same series length `288 * d`. When `d` is the selector
already held no regeneration happens and the two results are equal. When `d` differs, a
tick then the change leaves times `0, 5, ..., 5 * (288 * d - 1)`, while the change then a
tick leaves times `5, 10, ..., 5 * (288 * d)`: every time field is 5 larger. -/
theorem tick_change_orders (s : Dashboard) (h : Reachable s) (d : Nat) (hd : d = 1 ∨ d = 7)
    (tickRandom changeRandom : Random) :
    ∃ a b, tickThenChange d tickRandom changeRandom s = some a ∧
      changeThenTick d tickRandom changeRandom s = some b ∧
      a.viewDays = d ∧ b.viewDays = d ∧
      a.tempData.length = 288 * d ∧ b.tempData.length = 288 * d ∧
      (d = s.viewDays → a = b) ∧
      (d ≠ s.viewDays →
        times a.tempData = (List.range (288 * d)).map (fun i => 5 * i) ∧
        times b.tempData = (List.range (288 * d)).map (fun i => 5 * i + 5)) := by
  have hs := seriesInv_of_reachable s h
  obtain ⟨t, ht⟩ := tick_defined tickRandom s hs
  have htinv := seriesInv_tick tickRandom s t hs ht
  have htd : t.viewDays = s.viewDays := by
    unfold tick at ht
    simp only [Option.map_eq_some'] at ht
    obtain ⟨data, _, rfl⟩ := ht
    rfl
  have hcinv := seriesInv_setViewDays d hd changeRandom s hs
  obtain ⟨b, hb⟩ := tick_defined tickRandom (setViewDays d changeRandom s) hcinv
  have hbinv := seriesInv_tick tickRandom _ b hcinv hb
  have hainv := seriesInv_setViewDays d hd changeRandom t htinv
  have had : (setViewDays d changeRandom t).viewDays = d := by
    unfold setViewDays
    split
    · rename_i heq
      exact heq.symm
    · rfl
  have hcd : (setViewDays d changeRandom s).viewDays = d := by
    unfold setViewDays
    split
    · rename_i heq
      exact heq.symm
    · rfl
  have hbd : b.viewDays = d := by
    unfold tick at hb
    simp only [Option.map_eq_some'] at hb
    obtain ⟨data, _, rfl⟩ := hb
    exact hcd
  refine ⟨setViewDays d changeRandom t, b, by simp [tickThenChange, ht], hb, had, hbd,
    ?_, ?_, ?_, ?_⟩
  · rw [hainv.2.1, had]
  · rw [hbinv.2.1, hbd]
  · intro heq
    have h1 : setViewDays d changeRandom t = t := by simp [setViewDays, heq, htd]
    have h2 : setViewDays d changeRandom s = s := by simp [setViewDays, heq]
    rw [h2, ht] at hb
    rw [h1]
    exact Option.some.inj hb
  · intro hne
    have hne' : d ≠ t.viewDays := by rw [htd]; exact hne
    have ha : (setViewDays d changeRandom t).tempData = generateTemperatureData d changeRandom := by
      simp [setViewDays, hne', regenerate]
    have hc : (setViewDays d changeRandom s).tempData = generateTemperatureData d changeRandom := by
      simp [setViewDays, hne, regenerate]
    constructor
    · rw [ha, generate_times]
      rcases hd with rfl | rfl <;> simp [Nat.mul_comm]
    · unfold tick at hb
      simp only [Option.map_eq_some'] at hb
      obtain ⟨data, hdata, rfl⟩ := hb
      rw [hc] at hdata
      show times data = _
      rw [times_refreshTick_generate d tickRandom changeRandom data hdata]
      rcases hd with rfl | rfl <;> simp

theorem tick_change_orders_witness :
    ∃ a b, tickThenChange 7 zeroRandom topRandom
        (regenerate zeroRandom (initialState zeroRandom)) = some a ∧
      changeThenTick 7 zeroRandom topRandom
        (regenerate zeroRandom (initialState zeroRandom)) = some b ∧
      times a.tempData = (List.range (288 * 7)).map (fun i => 5 * i) ∧
      times b.tempData = (List.range (288 * 7)).map (fun i => 5 * i + 5) :=
  have h := tick_change_orders (regenerate zeroRandom (initialState zeroRandom))
    ⟨[.mount zeroRandom zeroRandom], _, rfl, rfl, rfl⟩ 7 (Or.inr rfl) zeroRandom topRandom
  match h with
  | ⟨a, b, ha, hb, _, _, _, _, _, hne⟩ => ⟨a, b, ha, hb, hne (by decide)⟩


/-! ## Axis labels -/

theorem toDigitsCore_length_pos (fuel n : Nat) :
    1 ≤ (Nat.toDigitsCore 10 (fuel + 1) n []).length := by
  simp only [Nat.toDigitsCore]
  split
  · simp
  · rw [Nat.toDigitsCore_lens_eq]
    omega

theorem toString_length_of_lt_ten (n : Nat) (h : n < 10) : (toString n).length = 1 := by
  interval_cases n <;> rfl

theorem toString_length_of_ten_le (n : Nat) (h : 10 ≤ n) : 2 ≤ (toString n).length := by
  show 2 ≤ (Nat.repr n).length
  simp only [Nat.repr, Nat.toDigits, List.asString, String.length]
  obtain ⟨m, rfl⟩ : ∃ m, n = m + 1 := ⟨n - 1, by omega⟩
  have hdiv : (m + 1) / 10 ≠ 0 := by omega
  rw [Nat.toDigitsCore]
  simp only [hdiv, if_false]
  rw [Nat.toDigitsCore_lens_eq]
  have := toDigitsCore_length_pos m ((m + 1) / 10)
  omega

theorem padStart_two_zero (n : Nat) : padStart (toString n) 2 '0' = zeroPadded2 n := by
  unfold padStart zeroPadded2
  split
  · rename_i h
    rw [toString_length_of_lt_ten n h]
    rfl
  · rename_i h
    have := toString_length_of_ten_le n (by omega)
    rw [show 2 - (toString n).length = 0 by omega]
    simp [String.ext_iff]

theorem padStart_two_digits : ∀ n < 100,
    padStart (toString n) 2 '0' = String.mk [Nat.digitChar (n / 10), Nat.digitChar (n % 10)] := by
  decide

theorem time_of_mem_generate (d : Nat) (random : Random) (smp : Sample)
    (h : smp ∈ generateTemperatureData d random) :
    ∃ i, i < (if d = 1 then 288 else 288 * 7) ∧ smp.time = i * 5 := by
  simp only [generateTemperatureData, List.mem_map, List.mem_range] at h
  obtain ⟨i, hi, rfl⟩ := h
  exact ⟨i, hi, rfl⟩

/-- For a safe integer offset the binary64 computation of `formatXAxis` agrees with exact
integer arithmetic and decimal numerals. -/
theorem formatXAxis_of_lt (t days : Nat) (ht : t < 2 ^ 53) :
    formatXAxis t days =
      if days = 1 then
        padStart (toString (t / 60)) 2 '0' ++ ":" ++ padStart (toString (t % 60)) 2 '0'
      else "Day " ++ toString (t / 60 / 24 + 1) := by
  have hh : t / 60 < 2 ^ 53 := by omega
  have hm : t % 60 < 2 ^ 53 := by omega
  have hday : t / 60 / 24 + 1 < 2 ^ 53 := by omega
  unfold formatXAxis
  simp only [floor_divNat_sixty t ht, floor_divNat_twentyfour _ hh,
    roundBinary64_eq_self _ (Nat.le_of_lt hday), numberToString_of_lt _ hh,
    numberToString_of_lt _ hm, numberToString_of_lt _ hday]

theorem label_of_hours_minutes (t : Nat) (ht : t < 1440) :
    formatXAxis t 1 = String.mk [Nat.digitChar (t / 60 / 10), Nat.digitChar (t / 60 % 10), ':',
      Nat.digitChar (t % 60 / 10), Nat.digitChar (t % 60 % 10)] := by
  have hh : t / 60 < 100 := by omega
  have hm : t % 60 < 100 := by omega
  rw [formatXAxis_of_lt t 1 (by omega)]
  simp only [if_true, padStart_two_digits _ hh, padStart_two_digits _ hm]
  rfl

set_option maxRecDepth 20000 in
/-- C3, as stated, fails: at the offset `72057594037928096`, itself a double, the quotient
`t / 60` rounds up to an integer, so the code prints hours `1200959900632135` where the
reference definition has `1200959900632134`. -/
theorem formatXAxis_departs_from_spec :
    roundBinary64 72057594037928096 = 72057594037928096 ∧
    formatXAxis 72057594037928096 1 = "1200959900632135:56" ∧
    formatSpec 72057594037928096 1 = some "1200959900632134:56" ∧
    some (formatXAxis 72057594037928096 1) ≠ formatSpec 72057594037928096 1 := by
  decide

set_option maxRecDepth 20000 in
/-- C3, amended: for every minute offset below `2 ^ 53` and both windows `formatXAxis`
equals the reference definition; `format(75, 1) = "01:15"`, `format(0, 1) = "00:00"`,
`format(1440, 7) = "Day 2"`; on every offset of a freshly generated series the 1-day label
is the five characters `HH:MM` with `HH` in `00..23` and `MM` in `00..59`, and the 7-day
label is `Day N` with `N` in `1..7`. -/
theorem formatXAxis_meets_spec (t days : Nat) (ht : t < 2 ^ 53) (hd : days = 1 ∨ days = 7) :
    some (formatXAxis t days) = formatSpec t days ∧
    formatXAxis 75 1 = "01:15" ∧
    formatXAxis 0 1 = "00:00" ∧
    formatXAxis 1440 7 = "Day 2" ∧
    (∀ random, ∀ smp ∈ generateTemperatureData 1 random, ∃ h m, h < 24 ∧ m < 60 ∧
      smp.time = 60 * h + m ∧
      formatXAxis smp.time 1 = String.mk [Nat.digitChar (h / 10), Nat.digitChar (h % 10), ':',
        Nat.digitChar (m / 10), Nat.digitChar (m % 10)] ∧
      (formatXAxis smp.time 1).length = 5) ∧
    (∀ random, ∀ smp ∈ generateTemperatureData 7 random, ∃ n, 1 ≤ n ∧ n ≤ 7 ∧
      formatXAxis smp.time 7 = "Day " ++ toString n) := by
  refine ⟨?_, by decide, by decide, by decide, ?_, ?_⟩
  · rw [formatXAxis_of_lt t days ht]
    rcases hd with rfl | rfl
    · simp [formatSpec, padStart_two_zero]
    · simp [formatSpec]
  · intro random smp hmem
    obtain ⟨i, hi, htime⟩ := time_of_mem_generate 1 random smp hmem
    simp only [if_true] at hi
    have hlt : smp.time < 1440 := by omega
    refine ⟨smp.time / 60, smp.time % 60, by omega, by omega, by omega, ?_, ?_⟩
    · exact label_of_hours_minutes smp.time hlt
    · rw [label_of_hours_minutes smp.time hlt]
      rfl
  · intro random smp hmem
    obtain ⟨i, hi, htime⟩ := time_of_mem_generate 7 random smp hmem
    simp only [Nat.reduceEqDiff, if_false] at hi
    refine ⟨smp.time / 60 / 24 + 1, by omega, by omega, ?_⟩
    rw [formatXAxis_of_lt smp.time 7 (by omega)]
    simp

set_option maxRecDepth 20000 in
theorem formatXAxis_meets_spec_witness :
    some (formatXAxis 1435 1) = formatSpec 1435 1 ∧ formatXAxis 1435 1 = "23:55" :=
  ⟨(formatXAxis_meets_spec 1435 1 (by decide) (Or.inl rfl)).1, by decide⟩

set_option maxRecDepth 20000 in
/-- C10, as stated, fails in its general part: at the offset `6 * 10 ^ 22`, itself a
double, the hours part of the 1-day label is `1e+21`, not the decimal numeral of
`t / 60 = 10 ^ 21`. -/
theorem formatXAxis_exponent_hours :
    roundBinary64 (6 * 10 ^ 22) = 6 * 10 ^ 22 ∧
    1440 ≤ 6 * 10 ^ 22 ∧
    formatXAxis (6 * 10 ^ 22) 1 = "1e+21:00" ∧
    formatXAxis (6 * 10 ^ 22) 1 ≠
      toString (6 * 10 ^ 22 / 60) ++ ":" ++ padStart (toString (6 * 10 ^ 22 % 60)) 2 '0' := by
  decide

set_option maxRecDepth 20000 in
/-- C10, amended: the formatter does not wrap. After one tick on a freshly generated series
the newest sample has time 1440 in the 1-day window, labelled `24:00`, and time 10080 in
the 7-day window, labelled `Day 8`; and for every offset `t` with `1440 ≤ t < 2 ^ 53` the
hours part of the 1-day label is the decimal numeral of `t / 60`, which is at least 24. -/
theorem formatXAxis_does_not_wrap (t : Nat) (ht : 1440 ≤ t) (hsafe : t < 2 ^ 53)
    (random tickRandom : Random) :
    (∃ s newest, refreshTick tickRandom (generateTemperatureData 1 random) = some s ∧
      s.getLast? = some newest ∧ newest.time = 1440) ∧
    formatXAxis 1440 1 = "24:00" ∧
    (∃ s newest, refreshTick tickRandom (generateTemperatureData 7 random) = some s ∧
      s.getLast? = some newest ∧ newest.time = 10080) ∧
    formatXAxis 10080 7 = "Day 8" ∧
    formatXAxis t 1 = toString (t / 60) ++ ":" ++ padStart (toString (t % 60)) 2 '0' ∧
    24 ≤ t / 60 := by
  have hlast : ∀ d, ((generateTemperatureData d random).getLast?).map Sample.time =
      some ((if d = 1 then 288 else 288 * 7) * 5 - 5) := by
    intro d
    have := congrArg List.getLast? (generate_times d random)
    simp only [times, List.getLast?_map, List.getLast?_range] at this
    rw [this]
    split <;> simp
  have tickLast : ∀ d, ∃ s newest,
      refreshTick tickRandom (generateTemperatureData d random) = some s ∧
      s.getLast? = some newest ∧ newest.time = (if d = 1 then 288 else 288 * 7) * 5 := by
    intro d
    have hl := hlast d
    cases hg : (generateTemperatureData d random).getLast? with
    | none => rw [hg] at hl; cases hl
    | some last =>
      rw [hg] at hl
      simp only [Option.map_some', Option.some.injEq] at hl
      refine ⟨(generateTemperatureData d random).drop 1 ++
          [⟨roundBinary64 (last.time + 5), randomBedTemp (tickRandom 0),
            randomNozzleTemp (tickRandom 1)⟩],
        ⟨roundBinary64 (last.time + 5), randomBedTemp (tickRandom 0),
          randomNozzleTemp (tickRandom 1)⟩,
        by simp only [refreshTick, hg], by simp, ?_⟩
      show roundBinary64 (last.time + 5) = _
      rw [hl]
      split <;> decide
  refine ⟨?_, by decide, ?_, by decide, ?_, by omega⟩
  · obtain ⟨s, newest, h1, h2, h3⟩ := tickLast 1
    exact ⟨s, newest, h1, h2, by simpa using h3⟩
  · obtain ⟨s, newest, h1, h2, h3⟩ := tickLast 7
    exact ⟨s, newest, h1, h2, by simpa using h3⟩
  · have h10 : ¬ t / 60 < 10 := by omega
    rw [formatXAxis_of_lt t 1 hsafe]
    simp [padStart_two_zero (t / 60), zeroPadded2, h10]

set_option maxRecDepth 20000 in
theorem formatXAxis_does_not_wrap_witness :
    formatXAxis 6000 1 = toString (6000 / 60) ++ ":" ++ padStart (toString (6000 % 60)) 2 '0' ∧
    formatXAxis 6000 1 = "100:00" :=
  ⟨(formatXAxis_does_not_wrap 6000 (by decide) (by decide) zeroRandom zeroRandom).2.2.2.2.1,
    by decide⟩

/-! ## Random temperatures -/

/-- What does hold of `Math.floor(r * (hi - lo + 1) + lo)` in binary64 for `0 ≤ r < 1`:
the result lies in `lo .. hi + 1`. The constants are those of the two temperature
channels. -/
theorem random_floor_bounds (r : Binary64) (hr : r.num < 2 ^ r.exp) (lo : Nat)
    (hlo : 41 + lo < 256) :
    lo ≤ ((r.mulNat 41).addNat lo).floor ∧ ((r.mulNat 41).addNat lo).floor ≤ lo + 41 := by
  simp only [Binary64.mulNat, Binary64.addNat, Binary64.floor]
  have hpos : 0 < 2 ^ r.exp := by positivity
  have h41 : r.num * 41 ≤ 41 * 2 ^ r.exp := by nlinarith
  have hb1 : bitLength (r.num * 41) - 53 ≤ r.exp := by
    have : r.num * 41 < 2 ^ (r.exp + 6) := by
      rw [pow_add]; norm_num; nlinarith
    have := bitLength_le _ _ this
    omega
  have hm : roundBinary64 (r.num * 41) ≤ 41 * 2 ^ r.exp := roundBinary64_le _ _ _ h41 hb1
  have hsum : roundBinary64 (r.num * 41) + lo * 2 ^ r.exp ≤ (lo + 41) * 2 ^ r.exp := by
    rw [Nat.add_mul]; omega
  have hb2 : bitLength (roundBinary64 (r.num * 41) + lo * 2 ^ r.exp) - 53 ≤ r.exp := by
    have : roundBinary64 (r.num * 41) + lo * 2 ^ r.exp < 2 ^ (r.exp + 8) := by
      rw [pow_add]; norm_num; nlinarith
    have := bitLength_le _ _ this
    omega
  constructor
  · rw [Nat.le_div_iff_mul_le hpos]
    exact le_roundBinary64 _ _ _ (by omega) hb2
  · have := roundBinary64_le _ _ _ hsum hb2
    apply Nat.div_le_of_le_mul
    exact le_of_le_of_eq this (Nat.mul_comm _ _)

/-- In exact arithmetic `floor(r * 41 + lo)` stays within `lo .. lo + 40` for `0 ≤ r < 1`:
only the rounding of the two binary64 operations lets the code reach `lo + 41`. -/
theorem exactFloor_bounds (r : Binary64) (hr : r.num < 2 ^ r.exp) (lo : Nat) :
    lo ≤ exactFloor r 41 lo ∧ exactFloor r 41 lo ≤ lo + 40 := by
  unfold exactFloor
  have hpos : 0 < 2 ^ r.exp := by positivity
  constructor
  · rw [Nat.le_div_iff_mul_le hpos]
    omega
  · have : r.num * 41 + lo * 2 ^ r.exp < (lo + 41) * 2 ^ r.exp := by
      rw [Nat.add_mul]; omega
    have := (Nat.div_lt_iff_lt_mul hpos).mpr this
    omega

/-- C2, the code at the failing input: when `Math.random()` returns the largest double
below `1`, namely `1 - 2 ^ (-53)`, or the largest multiple of `2 ^ (-52)` below `1`, the
bed temperature is `101` and the nozzle temperature is `221`, outside `60..100` and
`180..220`, both in a generated sample and in the sample appended by a tick. -/
theorem random_temperature_leaves_range :
    (Binary64.mk (2 ^ 53 - 1) 53).isRandom ∧
    randomBedTemp ⟨2 ^ 53 - 1, 53⟩ = 101 ∧
    randomNozzleTemp ⟨2 ^ 53 - 1, 53⟩ = 221 ∧
    (Binary64.mk (2 ^ 52 - 1) 52).isRandom ∧
    randomBedTemp ⟨2 ^ 52 - 1, 52⟩ = 101 ∧
    randomNozzleTemp ⟨2 ^ 52 - 1, 52⟩ = 221 ∧
    (generateTemperatureData 1 topRandom).head? = some ⟨0, 101, 221⟩ ∧
    refreshTick topRandom [⟨0, 60, 180⟩] = some [⟨5, 101, 221⟩] := by
  decide

/-- The temperatures of every generated or appended sample, for every value the random
source may return: `60 ≤ bedTemp ≤ 101` and `180 ≤ nozzleTemp ≤ 221`. -/
theorem random_temperature_bounds (r r' : Binary64) (hr : r.isRandom) (hr' : r'.isRandom) :
    (60 ≤ randomBedTemp r ∧ randomBedTemp r ≤ 101) ∧
    (180 ≤ randomNozzleTemp r' ∧ randomNozzleTemp r' ≤ 221) :=
  ⟨random_floor_bounds r hr.1 60 (by decide), random_floor_bounds r' hr'.1 180 (by decide)⟩

end BambuDashboard
